import Mathlib

/-!
# blog-service: the logger package (pkg/logger/logger.go) and the convert
package (pkg/convert/convert.go)

A shallow embedding of the structured logger and of the string conversions.
Go objects that are reached through references live in an explicit store:

* a handle is a Go pointer to a Logger struct: an address into the
  store of Logger structs;
* a field set (type Fields, a Go map) is nil or the address of a map
  object; two handles may hold the same address;
* a writer is identified by a number; the store records the text of every
  Write call each writer has received.

Everything the Go runtime and the standard library supply from outside the
package (clock, stack introspection, fmt formatting) is a field of
Runtime.
-/

namespace BlogService

/-! ## Dynamic values and Go maps -/

/-- The dynamic values (Go interface values) a field set or a record can hold:
the kinds the logger itself stores (strings, the int64 clock reading, a string
slice), scalars for custom fields, and a Go func value, which encoding/json
cannot encode.  For a string slice, none is the nil slice. -/
inductive Value where
  | null
  | bool (b : Bool)
  | int (n : Int)
  | str (s : String)
  | strs (xs : Option (List String))
  | func (id : Nat)
  deriving DecidableEq, Repr

/-- Keys of an entry list. -/
def keysOf (es : List (String × Value)) : List String := es.map Prod.fst

/-- Look a key up in an entry list. -/
def getEntry (k : String) : List (String × Value) → Option Value
  | [] => none
  | (k', v) :: t => if k' = k then some v else getEntry k t

/-- The Go assignment m[k] = v on an entry list: overwrite the entry of k, or
add one. -/
def setEntry (k : String) (v : Value) : List (String × Value) → List (String × Value)
  | [] => [(k, v)]
  | (k', v') :: t => if k' = k then (k, v) :: t else (k', v') :: setEntry k v t

/-- A Go map object with string keys: a list of entries with pairwise distinct
keys.  Go leaves the iteration order of a map unspecified; range is modelled
as visiting entries in list order, and all results are stated through
get, which does not depend on that order. -/
structure GoMap where
  entries : List (String × Value)
  nodup : (keysOf entries).Nodup

namespace GoMap

/-- The map make(Fields) returns. -/
def empty : GoMap := ⟨[], List.nodup_nil⟩

/-- The Go expression m[k] with its presence flag. -/
def get (m : GoMap) (k : String) : Option Value := getEntry k m.entries

/-- The Go statement m[k] = v. -/
def set (m : GoMap) (k : String) (v : Value) : GoMap :=
  ⟨setEntry k v m.entries, by
    have hkeys : ∀ es : List (String × Value),
        keysOf (setEntry k v es) = if k ∈ keysOf es then keysOf es else keysOf es ++ [k] := by
      intro es
      induction es with
      | nil => simp [setEntry, keysOf]
      | cons e t ih =>
        obtain ⟨k', v'⟩ := e
        by_cases h : k' = k
        · subst h; simp [setEntry, keysOf]
        · have h' : ¬ k = k' := fun e => h e.symm
          simp only [setEntry, if_neg h, keysOf, List.map_cons, List.mem_cons, h', false_or]
          simp only [keysOf] at ih
          rw [ih]
          split <;> simp
    rw [hkeys]
    split
    · exact m.nodup
    · rename_i hk
      exact List.Nodup.append m.nodup (List.nodup_singleton k) (by simpa using hk)⟩

/-- The keys of the map. -/
def keys (m : GoMap) : List String := keysOf m.entries

/-- The Go expression len(m). -/
def len (m : GoMap) : Nat := m.entries.length

/-- Build a map from a literal, as the Go composite literal does, entry by
entry. -/
def ofList (es : List (String × Value)) : GoMap :=
  es.foldl (fun m e => m.set e.1 e.2) empty

end GoMap

/-- The entries a range loop over a map argument visits: none for the nil
map. -/
def rangeOf (f : Option GoMap) : List (String × Value) :=
  match f with
  | none => []
  | some m => m.entries

/-- Reading f[k] from a map argument that may be nil. -/
def argGet (f : Option GoMap) (k : String) : Option Value :=
  match f with
  | none => none
  | some m => m.get k

/-! ## Levels -/

/-- Level is a Go int8; the six constants are 0 to 5 (iota). -/
abbrev Level := Int

def LevelDebug : Level := 0
def LevelInfo : Level := 1
def LevelWarn : Level := 2
def LevelError : Level := 3
def LevelFatal : Level := 4
def LevelPanic : Level := 5

/-- Level.String: the switch over the six constants, with the empty string
after it. -/
def Level.String (l : Level) : String :=
  if l = LevelDebug then "debug"
  else if l = LevelInfo then "info"
  else if l = LevelWarn then "warn"
  else if l = LevelError then "error"
  else if l = LevelFatal then "fatal"
  else if l = LevelPanic then "panic"
  else ""

/-! ## The store -/

/-- The standard library's log.Logger, as far as this package uses it: the
writer it was created over, its prefix and its flags.  The package never
changes them after log.New, so the object is carried by value. -/
structure LogLogger where
  out : Nat
  pfx : String
  flag : Int
  deriving DecidableEq, Repr

/-- Type Fields, a Go map value: none is the nil map, some a is a reference to
the map object at address a. -/
abbrev Fields := Option Nat

/-- The Logger struct.  A context is nil (none) or an identified context
value; callers is a string slice, none being the nil slice. -/
structure Logger where
  newLogger : LogLogger
  ctx : Option Nat
  fields : Fields
  callers : Option (List String)
  deriving DecidableEq, Repr

/-- The store: Logger structs and map objects by address, each with the next
free address, and for every writer the text of the Write calls it has
received, oldest first. -/
structure State where
  loggers : Nat → Logger
  nextLogger : Nat
  maps : Nat → GoMap
  nextMap : Nat
  sink : Nat → List String

/-- A runtime.Frame, with the three fields the package reads. -/
structure Frame where
  File : String
  Line : Int
  Function : String
  deriving DecidableEq, Repr

/-- What the Go runtime and standard library supply from outside the package.
now is time.Now().Local().UnixNano(); logHeader is the text package log puts
before the message for a prefix and a non-zero flag set (date, time, file);
Caller is runtime.Caller (program counter, file, line; none when ok is false);
FuncName is runtime.FuncForPC(pc).Name(); stack lists the frames
runtime.Callers(1, _) finds, innermost first; Sprint and Sprintf are
fmt.Sprint and fmt.Sprintf. -/
structure Runtime where
  now : Int
  logHeader : String → Int → String
  Caller : Int → Option (Nat × String × Int)
  FuncName : Nat → String
  stack : List Frame
  Sprint : List Value → String
  Sprintf : String → List Value → String

/-- How a call ends: it returns, it panics with a value, or the process exits
with a status. -/
inductive Outcome where
  | returned
  | panicked (v : String)
  | exited (code : Int)
  deriving DecidableEq, Repr

/-- Allocate a Logger struct holding v; returns its address. -/
def State.allocLogger (σ : State) (v : Logger) : State × Nat :=
  ({ σ with loggers := Function.update σ.loggers σ.nextLogger v,
            nextLogger := σ.nextLogger + 1 }, σ.nextLogger)

/-- Allocate a map object holding m; returns its address. -/
def State.allocMap (σ : State) (m : GoMap) : State × Nat :=
  ({ σ with maps := Function.update σ.maps σ.nextMap m,
            nextMap := σ.nextMap + 1 }, σ.nextMap)

/-- Store a new value in the Logger struct at address l. -/
def State.storeLogger (σ : State) (l : Nat) (v : Logger) : State :=
  { σ with loggers := Function.update σ.loggers l v }

/-- The Go statement m[k] = v through a map value.  (On the nil map Go panics;
WithFields only assigns after it has made the map non-nil.) -/
def State.mapAssign (σ : State) (m : Fields) (k : String) (v : Value) : State :=
  match m with
  | none => σ
  | some a => { σ with maps := Function.update σ.maps a ((σ.maps a).set k v) }

/-- The entries of a map value: the nil map has none. -/
def State.readMap (σ : State) (m : Fields) : GoMap :=
  match m with
  | none => GoMap.empty
  | some a => σ.maps a

/-- The field set of the handle at address l, as the entries of the map its
fields member refers to. -/
def State.fieldsOf (σ : State) (l : Nat) : GoMap :=
  σ.readMap (σ.loggers l).fields

/-- The store before any allocation: no writer has received anything. -/
def State.init : State :=
  { loggers := fun _ => ⟨⟨0, "", 0⟩, none, none, none⟩,
    nextLogger := 0,
    maps := fun _ => GoMap.empty,
    nextMap := 0,
    sink := fun _ => [] }

/-! ## Construction and chaining -/

/-- NewLogger: log.New(w, prefix, flag), then a Logger struct with only
newLogger set. -/
def NewLogger (σ : State) (w : Nat) (pfx : String) (flag : Int) : State × Nat :=
  let l : LogLogger := ⟨w, pfx, flag⟩
  σ.allocLogger { newLogger := l, ctx := none, fields := none, callers := none }

/-- Logger.clone: copy the struct at l into a new struct.  The copy is
shallow: the fields member of the copy is the same map reference. -/
def clone (σ : State) (l : Nat) : State × Nat :=
  let nl := σ.loggers l
  σ.allocLogger nl

/-- Logger.WithFields.  The argument f is only ranged over and is passed as
the entries it has at the call (none for a nil map); should f be the
receiver's own map, every assignment of the loop stores the value it has just
read under the key it has just read, so the entries at the call are still
what the loop sees. -/
def WithFields (σ : State) (l : Nat) (f : Option GoMap) : State × Nat :=
  let (σ, ll) := clone σ l
  let σ :=
    if (σ.loggers ll).fields = none then
      let (σ, m) := σ.allocMap GoMap.empty
      σ.storeLogger ll { σ.loggers ll with fields := some m }
    else σ
  let σ := (rangeOf f).foldl (fun σ kv => σ.mapAssign (σ.loggers ll).fields kv.1 kv.2) σ
  (σ, ll)

/-- Logger.WithContext. -/
def WithContext (σ : State) (l : Nat) (ctx : Option Nat) : State × Nat :=
  let (σ, ll) := clone σ l
  let σ := σ.storeLogger ll { σ.loggers ll with ctx := ctx }
  (σ, ll)

/-- The text fmt.Sprintf("%s: %d %s", file, line, name) produces. -/
def formatFrame (file : String) (line : Int) (name : String) : String :=
  file ++ ": " ++ toString line ++ " " ++ name

/-- Logger.WithCaller. -/
def WithCaller (rt : Runtime) (σ : State) (l : Nat) (skip : Int) : State × Nat :=
  let (σ, ll) := clone σ l
  match rt.Caller skip with
  | some (pc, file, line) =>
    let f := rt.FuncName pc
    (σ.storeLogger ll { σ.loggers ll with callers := some [formatFrame file line f] }, ll)
  | none => (σ, ll)

/-- The zero runtime.Frame. -/
def Frame.zero : Frame := ⟨"", 0, ""⟩

/-- Frames.Next on the frames still to be delivered: the next frame, whether
more frames follow it, and the frames left.  With nothing left it returns the
zero frame and false. -/
def Frames.Next (frames : List Frame) : (Frame × Bool) × List Frame :=
  match frames with
  | [] => ((Frame.zero, false), [])
  | f :: rest => ((f, !rest.isEmpty), rest)

/-- The for statement of WithCallersFrames from its condition on: frame and
more are the results of the latest Next, frames the iterator, callers the
slice built so far. -/
def WithCallersFrames.loop (frame : Frame) (more : Bool) (frames : List Frame)
    (callers : List String) : List String :=
  if more then
    let callers := callers ++ [formatFrame frame.File frame.Line frame.Function]
    if !more then callers
    else
      let r := Frames.Next frames
      WithCallersFrames.loop r.1.1 r.1.2 r.2 callers
  else callers
termination_by frames.length + (if more then 1 else 0)
decreasing_by
  cases frames with
  | nil => simp_all [Frames.Next]
  | cons f rest =>
    simp only [Frames.Next, List.length_cons]
    split <;> simp_all

/-- Logger.WithCallersFrames. -/
def WithCallersFrames (rt : Runtime) (σ : State) (l : Nat) : State × Nat :=
  let maxCallerDepth := 25
  let callers : List String := []
  let pcs := rt.stack.take maxCallerDepth
  let r := Frames.Next pcs
  let callers := WithCallersFrames.loop r.1.1 r.1.2 r.2 callers
  let (σ, ll) := clone σ l
  (σ.storeLogger ll { σ.loggers ll with callers := some callers }, ll)

/-! ## Record assembly and encoding -/

/-- Logger.JSONFormat: the four reserved keys, then every entry of the
receiver's fields whose key the record does not have yet.  The result is a new
map, returned by value. -/
def JSONFormat (rt : Runtime) (σ : State) (l : Nat) (level : Level) (message : String) :
    GoMap :=
  let data := GoMap.empty
  let data := data.set "level" (Value.str (Level.String level))
  let data := data.set "time" (Value.int rt.now)
  let data := data.set "message" (Value.str message)
  let data := data.set "callers" (Value.strs (σ.loggers l).callers)
  if (σ.fieldsOf l).len > 0 then
    (σ.fieldsOf l).entries.foldl
      (fun data kv => if data.get kv.1 = none then data.set kv.1 kv.2 else data) data
  else data

/-- A hexadecimal digit. -/
def hexDigit (n : Nat) : Char := (Nat.toDigits 16 (n % 16)).headD (Char.ofNat 48)

/-- The four-digit escape encoding/json writes for a character it does not
write literally. -/
def unicodeEscape (n : Nat) : List Char :=
  [Char.ofNat 92, Char.ofNat 117, hexDigit (n / 4096), hexDigit (n / 256), hexDigit (n / 16),
    hexDigit n]

/-- One character of a JSON string as encoding/json writes it: the quote and
the backslash take a backslash; backspace, form feed, newline, carriage return
and tab their short form (b, f, n, r, t after a backslash); other control
characters, the HTML characters (less-than, greater-than, ampersand) and
U+2028, U+2029 the four-digit escape. -/
def escapeChar (c : Char) : List Char :=
  let n := c.toNat
  if n = 34 then [Char.ofNat 92, Char.ofNat 34]
  else if n = 92 then [Char.ofNat 92, Char.ofNat 92]
  else if n = 8 then [Char.ofNat 92, Char.ofNat 98]
  else if n = 12 then [Char.ofNat 92, Char.ofNat 102]
  else if n = 10 then [Char.ofNat 92, Char.ofNat 110]
  else if n = 13 then [Char.ofNat 92, Char.ofNat 114]
  else if n = 9 then [Char.ofNat 92, Char.ofNat 116]
  else if n < 32 ∨ n = 60 ∨ n = 62 ∨ n = 38 ∨ n = 8232 ∨ n = 8233 then unicodeEscape n
  else [c]

/-- A JSON string literal. -/
def jsonString (s : String) : String :=
  String.mk ([Char.ofNat 34] ++ (s.toList.map escapeChar).flatten ++ [Char.ofNat 34])

/-- The JSON text of one value, or none where encoding/json reports an error.
A nil slice is encoded as null. -/
def jsonValue (v : Value) : Option String :=
  match v with
  | Value.null => some "null"
  | Value.bool b => some (if b then "true" else "false")
  | Value.int n => some (toString n)
  | Value.str s => some (jsonString s)
  | Value.strs none => some "null"
  | Value.strs (some xs) => some ("[" ++ String.intercalate "," (xs.map jsonString) ++ "]")
  | Value.func _ => none

/-- Strict order of two keys, character by character (the byte order of their
UTF-8 text). -/
def keyLt : List Char → List Char → Bool
  | _, [] => false
  | [], _ :: _ => true
  | a :: as, b :: bs => decide (a.toNat < b.toNat) || (decide (a.toNat = b.toNat) && keyLt as bs)

/-- Insert an entry into a list sorted by key. -/
def insertByKey (e : String × Value) : List (String × Value) → List (String × Value)
  | [] => [e]
  | x :: t => if keyLt x.1.toList e.1.toList then x :: insertByKey e t else e :: x :: t

/-- Sort entries by key: encoding/json writes the keys of a map in sorted
order. -/
def sortByKey (es : List (String × Value)) : List (String × Value) :=
  es.foldr insertByKey []

/-- Encode the members of an object; none as soon as one value cannot be
encoded. -/
def jsonMembers : List (String × Value) → Option (List String)
  | [] => some []
  | (k, v) :: t =>
    match jsonValue v, jsonMembers t with
    | some sv, some st => some ((jsonString k ++ ":" ++ sv) :: st)
    | _, _ => none

/-- The function json.Marshal on a record: the object text, or none for a
non-nil error (the returned bytes are then nil). -/
def jsonMarshal (data : GoMap) : Option String :=
  match jsonMembers (sortByKey data.entries) with
  | some ms => some ("\x7b" ++ String.intercalate "," ms ++ "\x7d")
  | none => none

/-! ## Emission -/

/-- The header log.Logger.Output writes before the message: with flag 0 it is
the prefix. -/
def LogLogger.header (rt : Runtime) (lg : LogLogger) : String :=
  if lg.flag = 0 then lg.pfx else rt.logHeader lg.pfx lg.flag

/-- The text log.Logger.Output hands to the writer in one Write call: the
header, the message, and a newline unless the message already ends with one.
With flag 0 the header is the prefix. -/
def LogLogger.line (rt : Runtime) (lg : LogLogger) (s : String) : String :=
  let header := lg.header rt
  if s.toList.getLast? = some (Char.ofNat 10) then header ++ s else header ++ s ++ "\n"

/-- The method log.Logger.Output: one Write call on the writer.  The error a
Write may return is dropped by Print, Panic and Fatal, so it is not
modelled. -/
def LogLogger.Output (rt : Runtime) (σ : State) (lg : LogLogger) (s : String) : State :=
  { σ with sink := Function.update σ.sink lg.out (σ.sink lg.out ++ [lg.line rt s]) }

/-- The method log.Logger.Print, on one string. -/
def LogLogger.Print (rt : Runtime) (σ : State) (lg : LogLogger) (s : String) :
    State × Outcome :=
  (lg.Output rt σ s, Outcome.returned)

/-- The method log.Logger.Panic, on one string: Output, then panic(s). -/
def LogLogger.Panic (rt : Runtime) (σ : State) (lg : LogLogger) (s : String) :
    State × Outcome :=
  (lg.Output rt σ s, Outcome.panicked s)

/-- The method log.Logger.Fatal, on one string: Output, then os.Exit(1). -/
def LogLogger.Fatal (rt : Runtime) (σ : State) (lg : LogLogger) (s : String) :
    State × Outcome :=
  (lg.Output rt σ s, Outcome.exited 1)

/-- Logger.Output: encode the record (the error of json.Marshal is dropped,
nil bytes give the empty string), then the switch on the level. -/
def Output (rt : Runtime) (σ : State) (l : Nat) (level : Level) (message : String) :
    State × Outcome :=
  let body := jsonMarshal (JSONFormat rt σ l level message)
  let content := body.getD ""
  let newLogger := (σ.loggers l).newLogger
  if level = LevelDebug then newLogger.Print rt σ content
  else if level = LevelInfo then newLogger.Print rt σ content
  else if level = LevelWarn then newLogger.Print rt σ content
  else if level = LevelError then newLogger.Panic rt σ content
  else if level = LevelFatal then newLogger.Fatal rt σ content
  else if level = LevelPanic then newLogger.Panic rt σ content
  else (σ, Outcome.returned)

/-- Logger.Info. -/
def Info (rt : Runtime) (σ : State) (l : Nat) (v : List Value) : State × Outcome :=
  Output rt σ l LevelInfo (rt.Sprint v)

/-- Logger.Infof. -/
def Infof (rt : Runtime) (σ : State) (l : Nat) (format : String) (v : List Value) :
    State × Outcome :=
  Output rt σ l LevelInfo (rt.Sprintf format v)

/-- Logger.Fatal. -/
def Fatal (rt : Runtime) (σ : State) (l : Nat) (v : List Value) : State × Outcome :=
  Output rt σ l LevelFatal (rt.Sprint v)

/-- Logger.Fatalf. -/
def Fatalf (rt : Runtime) (σ : State) (l : Nat) (format : String) (v : List Value) :
    State × Outcome :=
  Output rt σ l LevelFatal (rt.Sprintf format v)

/-- Logger.Errorf. -/
def Errorf (rt : Runtime) (σ : State) (l : Nat) (format : String) (v : List Value) :
    State × Outcome :=
  Output rt σ l LevelError (rt.Sprintf format v)

/-- The store after one Write call of text on writer w. -/
def State.wrote (σ : State) (w : Nat) (text : String) : State :=
  { σ with sink := Function.update σ.sink w (σ.sink w ++ [text]) }

/-! ## Reading the result of a call -/

/-- The Logger struct of the handle a chaining call returned, read in the
store the call returned. -/
def resultLogger (r : State × Nat) : Logger := r.1.loggers r.2

/-- The field set of the handle a chaining call returned, read in the store
the call returned. -/
def resultFields (r : State × Nat) : GoMap := r.1.fieldsOf r.2

/-- Method chaining: call op on the handle r returned, in the store r
returned. -/
def chain {α : Type} (r : State × Nat) (op : State → Nat → α) : α := op r.1 r.2

/-! ## A concrete runtime, for evaluating the code on explicit inputs -/

/-- How the sample formatter prints one operand: strings and integers as fmt
prints them under the verbs s, d and v. -/
def sprintArg : Value → String
  | Value.str s => s
  | Value.int n => toString n
  | Value.bool b => if b then "true" else "false"
  | Value.null => "<nil>"
  | Value.strs none => "[]"
  | Value.strs (some xs) => "[" ++ String.intercalate " " xs ++ "]"
  | Value.func _ => "func"

/-- A formatter that agrees with fmt.Sprintf on formats whose verbs are s, d
and v applied to strings and integers, and on the doubled percent sign. -/
def sprintfChars (pending : Bool) : List Char → List Value → List Char
  | [], _ => if pending then [Char.ofNat 37] else []
  | c :: t, args =>
    if pending then
      if c.toNat = 37 then c :: sprintfChars false t args
      else if c.toNat = 115 ∨ c.toNat = 100 ∨ c.toNat = 118 then
        match args with
        | a :: as => (sprintArg a).toList ++ sprintfChars false t as
        | [] => sprintfChars false t []
      else Char.ofNat 37 :: c :: sprintfChars false t args
    else if c.toNat = 37 then sprintfChars true t args
    else c :: sprintfChars false t args

/-- A runtime with a fixed clock, a stack of three frames below the logger
method, and the formatter above. -/
def sampleRuntime : Runtime :=
  { now := 1600000000000000000,
    logHeader := fun pfx _ => pfx,
    Caller := fun skip =>
      if skip = 0 then some (1, "/app/pkg/logger/logger.go", 92)
      else if skip = 1 then some (2, "/app/main.go", 10)
      else if skip = 2 then some (3, "/go/src/runtime/proc.go", 250)
      else none,
    FuncName := fun pc =>
      if pc = 1 then "blog-service/pkg/logger.(*Logger).WithCaller"
      else if pc = 2 then "main.main"
      else if pc = 3 then "runtime.main"
      else "",
    stack :=
      [⟨"/app/pkg/logger/logger.go", 110, "blog-service/pkg/logger.(*Logger).WithCallersFrames"⟩,
       ⟨"/app/main.go", 10, "main.main"⟩,
       ⟨"/go/src/runtime/proc.go", 250, "runtime.main"⟩],
    Sprint := fun vs => String.join (vs.map sprintArg),
    Sprintf := fun format vs => String.mk (sprintfChars false format.toList vs) }

/-- A handle with a field set: root.WithFields(a: 1), the root made by
NewLogger over the initial store. -/
def sampleParent : State × Nat :=
  chain (NewLogger State.init 0 "" 0)
    fun σ l => WithFields σ l (some (GoMap.ofList [("a", Value.int 1)]))

/-- A first handle derived from sampleParent: p.WithFields(x: 1). -/
def sampleSibling1 : State × Nat :=
  WithFields sampleParent.1 sampleParent.2 (some (GoMap.ofList [("x", Value.int 1)]))

/-- A second handle derived from sampleParent, after the first:
p.WithFields(y: 2). -/
def sampleSibling2 : State × Nat :=
  WithFields sampleSibling1.1 sampleParent.2 (some (GoMap.ofList [("y", Value.int 2)]))

/-- The handle of the Infof scenario: NewLogger on writer w with empty prefix
and flags 0, then WithFields(request_id: abc). -/
def scenarioHandle (σ : State) (w : Nat) : State × Nat :=
  chain (NewLogger σ w "" 0)
    fun σ l => WithFields σ l (some (GoMap.ofList [("request_id", Value.str "abc")]))

/-- The four keys JSONFormat sets itself. -/
def reservedKeys : List String := ["level", "time", "message", "callers"]

/-- A handle whose record cannot be encoded: root.WithFields(cb: a func
value), the root made by NewLogger over the initial store. -/
def sampleUnencodable : State × Nat :=
  chain (NewLogger State.init 0 "" 0)
    fun σ l => WithFields σ l (some (GoMap.ofList [("cb", Value.func 1)]))

/-! ## Sequences of chaining calls -/

/-- The two errors strconv.Atoi reports. -/
inductive NumError where
  | ErrSyntax
  | ErrRange
  deriving DecidableEq, Repr

/-- The value of a decimal digit, none for any other character. -/
def digitOf (c : Char) : Option Nat :=
  if 48 ≤ c.toNat ∧ c.toNat ≤ 57 then some (c.toNat - 48) else none

/-- The digit loop of strconv.ParseUint for base 10 and 64 bits, n being the
number read so far.  A character that is no decimal digit ends it with value 0
and ErrSyntax; a digit that would carry the number past 2^64 - 1 ends it with
value 2^64 - 1 and ErrRange, before any later character is read. -/
def parseUintFrom (n : Nat) : List Char → Nat × Option NumError
  | [] => (n, none)
  | c :: t =>
    match digitOf c with
    | none => (0, some NumError.ErrSyntax)
    | some d =>
      if n ≥ (2 ^ 64 - 1) / 10 + 1 then (2 ^ 64 - 1, some NumError.ErrRange)
      else if n * 10 + d > 2 ^ 64 - 1 then (2 ^ 64 - 1, some NumError.ErrRange)
      else parseUintFrom (n * 10 + d) t

/-- The function strconv.ParseUint(s, 10, 64) on the characters after the
sign: the empty text is a syntax error. -/
def ParseUint (cs : List Char) : Nat × Option NumError :=
  match cs with
  | [] => (0, some NumError.ErrSyntax)
  | _ :: _ => parseUintFrom 0 cs

/-- Split an optional sign off a text: whether it is negative, and the
rest. -/
def splitSign (cs : List Char) : Bool × List Char :=
  match cs with
  | [] => (false, [])
  | c :: t => if c.toNat = 45 then (true, t) else if c.toNat = 43 then (false, t) else (false, c :: t)

/-- The function strconv.ParseInt(s, 10, 64): strip the sign, read the
magnitude with ParseUint; a syntax error gives 0; a magnitude the sign cannot
carry in 64 bits (also after a range error of ParseUint) gives the int of
largest magnitude with that sign and ErrRange; otherwise the value and no
error. -/
def ParseInt (cs : List Char) : Int × Option NumError :=
  let neg := (splitSign cs).1
  let r := ParseUint (splitSign cs).2
  if r.2 = some NumError.ErrSyntax then (0, some NumError.ErrSyntax)
  else if neg = false ∧ r.1 ≥ 2 ^ 63 then (2 ^ 63 - 1, some NumError.ErrRange)
  else if neg = true ∧ r.1 > 2 ^ 63 then (-(2 ^ 63), some NumError.ErrRange)
  else (if neg then -(r.1 : Int) else (r.1 : Int), none)

/-- The function strconv.Atoi for a 64-bit int: ParseInt(s, 10, 0) converted
to int.  (Its fast path for texts shorter than 19 characters returns what
ParseInt returns on them.) -/
def Atoi (s : String) : Int × Option NumError :=
  ParseInt s.toList

/-- The Go conversion uint32(v) of an int: the value modulo 2^32. -/
def uint32 (v : Int) : Nat := (v % 2 ^ 32).toNat

/-- Type StrTo is a Go string. -/
abbrev StrTo := String

/-- StrTo.String. -/
def StrTo.String (s : StrTo) : String := s

/-- StrTo.Int: the value and the error of strconv.Atoi. -/
def StrTo.Int (s : StrTo) : ℤ × Option NumError :=
  let r := Atoi (StrTo.String s)
  (r.1, r.2)

/-- StrTo.MustInt: the value of Int, its error dropped. -/
def StrTo.MustInt (s : StrTo) : ℤ :=
  (StrTo.Int s).1

/-- StrTo.UInt32: the value of strconv.Atoi converted to uint32, and its
error. -/
def StrTo.UInt32 (s : StrTo) : Nat × Option NumError :=
  let r := Atoi (StrTo.String s)
  (uint32 r.1, r.2)

/-- StrTo.MustUInt32: the value of UInt32, its error dropped. -/
def StrTo.MustUInt32 (s : StrTo) : Nat :=
  (StrTo.UInt32 s).1

/-- A runtime whose stack has 30 frames, more than WithCallersFrames asks
for. -/
def deepRuntime : Runtime :=
  { sampleRuntime with
    stack := (List.range 30).map fun i => ⟨"/app/handler.go", i, "main.handle"⟩ }

/-- A runtime whose stack has one frame. -/
def shallowRuntime : Runtime :=
  { sampleRuntime with stack := [⟨"/app/main.go", 10, "main.main"⟩] }

/-- The six level constants, in the order of their declaration. -/
def definedLevels : List Level :=
  [LevelDebug, LevelInfo, LevelWarn, LevelError, LevelFatal, LevelPanic]

/-- The character of a decimal digit. -/
def digitChar (d : Nat) : Char := Char.ofNat (48 + d)

/-- In the words of the claim on UInt32: s is a well-formed decimal integer of
value n, that is an optional sign (plus or minus) followed by one or more
decimal digits, n being the number these digits write in base ten, negated
under a minus sign. -/
def IsDecimal (s : String) (n : Int) : Prop :=
  ∃ ds : List Nat, ds ≠ [] ∧ (∀ d ∈ ds, d < 10) ∧
    ((s.toList = ds.map digitChar ∧ n = ((Nat.ofDigits 10 ds.reverse : Nat) : Int)) ∨
     (s.toList = Char.ofNat 43 :: ds.map digitChar ∧
        n = ((Nat.ofDigits 10 ds.reverse : Nat) : Int)) ∨
     (s.toList = Char.ofNat 45 :: ds.map digitChar ∧
        n = -((Nat.ofDigits 10 ds.reverse : Nat) : Int)))

theorem getEntry_setEntry (k : String) (v : Value) (es : List (String × Value)) (k' : String) :
    getEntry k' (setEntry k v es) = if k' = k then some v else getEntry k' es := by
  induction es with
  | nil =>
    by_cases h : k' = k
    · simp [setEntry, getEntry, h]
    · have h' : ¬ k = k' := fun e => h e.symm
      simp [setEntry, getEntry, h, h']
  | cons e t ih =>
    obtain ⟨k₀, v₀⟩ := e
    by_cases h0 : k₀ = k
    · subst h0
      by_cases h : k' = k₀
      · simp [setEntry, getEntry, h]
      · have h' : ¬ k₀ = k' := fun e => h e.symm
        simp [setEntry, getEntry, h, h']
    · by_cases h : k' = k
      · subst h; simp [setEntry, getEntry, h0, ih]
      · by_cases h1 : k₀ = k'
        · simp [setEntry, getEntry, h0, h, h1]
        · simp [setEntry, getEntry, h0, h, h1, ih]

theorem getEntry_eq_none_iff (k : String) (es : List (String × Value)) :
    getEntry k es = none ↔ k ∉ keysOf es := by
  induction es with
  | nil => simp [getEntry, keysOf]
  | cons e t ih =>
    obtain ⟨k₀, v₀⟩ := e
    by_cases h : k₀ = k
    · simp [getEntry, keysOf, h]
    · have h' : ¬ k = k₀ := fun e => h e.symm
      simp only [getEntry, if_neg h, ih, keysOf, List.map_cons, List.mem_cons, h', false_or]

theorem GoMap.get_set (m : GoMap) (k : String) (v : Value) (k' : String) :
    (m.set k v).get k' = if k' = k then some v else m.get k' :=
  getEntry_setEntry k v m.entries k'

theorem GoMap.get_empty (k : String) : GoMap.empty.get k = none := rfl

theorem GoMap.mem_keys_iff (m : GoMap) (k : String) : k ∈ m.keys ↔ m.get k ≠ none := by
  unfold GoMap.keys GoMap.get
  rw [Ne, getEntry_eq_none_iff]
  exact not_not.symm

/-- Assigning the entries of a list with distinct keys, one after the other:
the keys of the list take the list's values, the other keys keep theirs. -/
theorem get_foldl_set (es : List (String × Value)) (hes : (keysOf es).Nodup) (m : GoMap)
    (k : String) :
    (es.foldl (fun m e => m.set e.1 e.2) m).get k =
      match getEntry k es with
      | some v => some v
      | none => m.get k := by
  induction es generalizing m with
  | nil => simp [getEntry]
  | cons e t ih =>
    obtain ⟨k₀, v₀⟩ := e
    simp only [keysOf, List.map_cons, List.nodup_cons] at hes
    obtain ⟨hk₀, ht⟩ := hes
    rw [List.foldl_cons, ih ht, GoMap.get_set]
    by_cases h : k₀ = k
    · subst h
      have hnone : getEntry k₀ t = none := (getEntry_eq_none_iff k₀ t).2 hk₀
      simp [getEntry, hnone]
    · have h' : ¬ k = k₀ := fun e => h e.symm
      simp [getEntry, h, h']

/-- The range loop of WithFields, once the new handle's fields member refers
to the map object at a: only that object changes. -/
theorem foldl_mapAssign (ll a : Nat) (es : List (String × Value)) (σ : State)
    (h : (σ.loggers ll).fields = some a) :
    es.foldl (fun σ kv => σ.mapAssign (σ.loggers ll).fields kv.1 kv.2) σ =
      { σ with maps := Function.update σ.maps a
                 (es.foldl (fun m e => m.set e.1 e.2) (σ.maps a)) } := by
  induction es generalizing σ with
  | nil => simp
  | cons e t ih =>
    rw [List.foldl_cons, h]
    have h1 : ((σ.mapAssign (some a) e.1 e.2).loggers ll).fields = some a := by
      simpa [State.mapAssign] using h
    rw [ih _ h1]
    simp [State.mapAssign]

/-- What WithFields does to the store, when the receiver has a map. -/
theorem WithFields_some (σ : State) (l : Nat) (f : Option GoMap) (a : Nat)
    (h : (σ.loggers l).fields = some a) :
    WithFields σ l f =
      ({ σ with loggers := Function.update σ.loggers σ.nextLogger (σ.loggers l),
                nextLogger := σ.nextLogger + 1,
                maps := Function.update σ.maps a
                  ((rangeOf f).foldl (fun m e => m.set e.1 e.2) (σ.maps a)) },
        σ.nextLogger) := by
  simp only [WithFields, clone, State.allocLogger, Function.update_same, h]
  rw [if_neg (by simp)]
  rw [foldl_mapAssign σ.nextLogger a _ _ (by simpa using h)]

/-- What WithFields does to the store, when the receiver's map is nil. -/
theorem WithFields_none (σ : State) (l : Nat) (f : Option GoMap)
    (h : (σ.loggers l).fields = none) :
    WithFields σ l f =
      ({ σ with loggers := Function.update σ.loggers σ.nextLogger
                  { σ.loggers l with fields := some σ.nextMap },
                nextLogger := σ.nextLogger + 1,
                maps := Function.update σ.maps σ.nextMap
                  ((rangeOf f).foldl (fun m e => m.set e.1 e.2) GoMap.empty),
                nextMap := σ.nextMap + 1 },
        σ.nextLogger) := by
  simp only [WithFields, clone, State.allocLogger, Function.update_same, h, if_true,
    State.allocMap, State.storeLogger]
  rw [foldl_mapAssign σ.nextLogger σ.nextMap _ _ (by simp)]
  simp

theorem nodup_rangeOf (f : Option GoMap) : (keysOf (rangeOf f)).Nodup := by
  cases f with
  | none => exact List.nodup_nil
  | some m => exact m.nodup

theorem getEntry_rangeOf (f : Option GoMap) (k : String) :
    getEntry k (rangeOf f) = argGet f k := by
  cases f <;> rfl

/-- The field set of the handle WithFields returns: the additions, over the
receiver's entries. -/
theorem fieldsOf_WithFields (σ : State) (l : Nat) (f : Option GoMap) (k : String) :
    ((WithFields σ l f).1.fieldsOf (WithFields σ l f).2).get k =
      match argGet f k with
      | some v => some v
      | none => (σ.fieldsOf l).get k := by
  cases h : (σ.loggers l).fields with
  | none =>
    rw [WithFields_none σ l f h]
    simp only [State.fieldsOf, Function.update_same, State.readMap, h]
    rw [get_foldl_set _ (nodup_rangeOf f), getEntry_rangeOf]
  | some a =>
    rw [WithFields_some σ l f a h]
    simp only [State.fieldsOf, Function.update_same, State.readMap, h]
    rw [get_foldl_set _ (nodup_rangeOf f), getEntry_rangeOf]

/-- Filling a record from a list of entries, as the loop of JSONFormat does:
a key the record already has keeps its value, any other key takes the value
of its first entry in the list. -/
theorem get_foldl_fill (es : List (String × Value)) (d : GoMap) (k : String) :
    (es.foldl (fun data kv => if data.get kv.1 = none then data.set kv.1 kv.2 else data) d).get k =
      match d.get k with
      | some v => some v
      | none => getEntry k es := by
  induction es generalizing d with
  | nil => cases hd : d.get k <;> simp [getEntry, hd]
  | cons e t ih =>
    obtain ⟨k₀, v₀⟩ := e
    rw [List.foldl_cons, ih]
    by_cases hk : k₀ = k
    · subst hk
      cases hd : d.get k₀ with
      | none => simp [hd, GoMap.get_set, getEntry]
      | some x => simp [hd]
    · have hk' : ¬ k = k₀ := fun e => hk e.symm
      cases hd : d.get k₀ with
      | none => simp [hd, GoMap.get_set, getEntry, hk, hk']
      | some x => simp [hd, getEntry, hk]

/-- Every key of the record JSONFormat builds, in one formula. -/
theorem JSONFormat_get (rt : Runtime) (σ : State) (l : Nat) (level : Level) (message : String)
    (k : String) :
    (JSONFormat rt σ l level message).get k =
      if k = "callers" then some (Value.strs (σ.loggers l).callers)
      else if k = "message" then some (Value.str message)
      else if k = "time" then some (Value.int rt.now)
      else if k = "level" then some (Value.str (Level.String level))
      else (σ.fieldsOf l).get k := by
  unfold JSONFormat
  by_cases hlen : (σ.fieldsOf l).len > 0
  · simp only [hlen, if_true]
    rw [get_foldl_fill]
    simp only [GoMap.get_set, GoMap.get_empty]
    split_ifs <;> rfl
  · have hnil : (σ.fieldsOf l).entries = [] := by
      simpa [GoMap.len] using hlen
    simp only [hlen, if_false, GoMap.get_set, GoMap.get_empty]
    split_ifs <;> simp [GoMap.get, hnil, getEntry]

/-! ## WithFields: receiver, merge, siblings -/

/-- C1 (the code breaks it): WithFields changes its receiver when the receiver
already has a field set.  The handle h is sampleParent, root.WithFields(a: 1);
before h.WithFields(b: 2) the field set of h has no key b, after the call it
maps b to 2, while a is still 1: the clone shares the receiver's map object
and the loop assigns into it. -/
theorem WithFields_changes_receiver :
    (sampleParent.1.fieldsOf sampleParent.2).get "b" = none ∧
    ((WithFields sampleParent.1 sampleParent.2
        (some (GoMap.ofList [("b", Value.int 2)]))).1.fieldsOf sampleParent.2).get "b" =
      some (Value.int 2) ∧
    ((WithFields sampleParent.1 sampleParent.2
        (some (GoMap.ofList [("b", Value.int 2)]))).1.fieldsOf sampleParent.2).get "a" =
      some (Value.int 1) ∧
    ((WithFields sampleParent.1 sampleParent.2
        (some (GoMap.ofList [("b", Value.int 2)]))).1.loggers sampleParent.2).fields =
      (resultLogger (WithFields sampleParent.1 sampleParent.2
        (some (GoMap.ofList [("b", Value.int 2)])))).fields := by
  decide

/-- C2: the field set of h.WithFields(A).WithFields(B) maps every key k to
B[k] if B has k, else to A[k] if A has k, else to what h had for k (and has k
only in these cases); for a root handle made by NewLogger that is A merged
with B, B winning; with nil or empty additions the new handle has the
entries of the receiver. -/
theorem WithFields_merge (σ : State) (l : Nat) (A B : Option GoMap) (w : Nat) (pfx : String)
    (flag : Int) (k : String) :
    ((resultFields (chain (WithFields σ l A) fun σ l => WithFields σ l B)).get k =
       match argGet B k with
       | some v => some v
       | none =>
         match argGet A k with
         | some v => some v
         | none => (σ.fieldsOf l).get k) ∧
    ((resultFields (chain (chain (NewLogger σ w pfx flag) fun σ l => WithFields σ l A)
        fun σ l => WithFields σ l B)).get k =
       match argGet B k with
       | some v => some v
       | none => argGet A k) ∧
    (resultFields (WithFields σ l none)).get k = (σ.fieldsOf l).get k ∧
    (resultFields (WithFields σ l (some GoMap.empty))).get k = (σ.fieldsOf l).get k := by
  simp only [resultFields, chain]
  refine ⟨?_, ?_, ?_, ?_⟩
  · simp only [fieldsOf_WithFields]
  · simp only [fieldsOf_WithFields]
    have hroot : ((NewLogger σ w pfx flag).1.fieldsOf (NewLogger σ w pfx flag).2).get k = none := by
      simp [NewLogger, State.allocLogger, State.fieldsOf, State.readMap, GoMap.get_empty]
    rw [hroot]
    cases argGet B k <;> cases argGet A k <;> rfl
  · rw [fieldsOf_WithFields]; rfl
  · rw [fieldsOf_WithFields]; rfl

/-- C3 (the code breaks it): siblings derived from a parent that has a field
set share it.  The parent p is sampleParent, root.WithFields(a: 1); h1 is
sampleSibling1, p.WithFields(x: 1), and then h2 is sampleSibling2,
p.WithFields(y: 2), with x, y distinct and absent from p.
Afterwards the field set of h1 has the key y of the second derivation, the
field set of h2 has the key x of the first, and all three handles refer to
one map object. -/
theorem WithFields_siblings_share :
    (sampleSibling1.1.fieldsOf sampleSibling1.2).get "y" = none ∧
    (sampleSibling2.1.fieldsOf sampleSibling1.2).get "y" = some (Value.int 2) ∧
    (sampleSibling2.1.fieldsOf sampleSibling2.2).get "x" = some (Value.int 1) ∧
    (sampleSibling2.1.loggers sampleSibling1.2).fields =
      (sampleSibling2.1.loggers sampleSibling2.2).fields ∧
    (sampleSibling2.1.loggers sampleSibling1.2).fields =
      (sampleSibling2.1.loggers sampleParent.2).fields := by
  decide

/-! ## Record assembly -/

/-- C4: the keys of the record JSONFormat returns are exactly level, time,
message, callers and the keys of the handle's field set; level holds
level.String(), message the message passed in, callers the handle's caller
list (time holds the clock reading); this whatever the field set says under
these four names, so a custom field named message, level, time or callers is
dropped; and every other key holds the value the field set gives it. -/
theorem JSONFormat_record (rt : Runtime) (σ : State) (l : Nat) (level : Level)
    (message : String) :
    (∀ k, k ∈ (JSONFormat rt σ l level message).keys ↔
      k ∈ reservedKeys ∨ k ∈ (σ.fieldsOf l).keys) ∧
    (JSONFormat rt σ l level message).get "level" = some (Value.str (Level.String level)) ∧
    (JSONFormat rt σ l level message).get "message" = some (Value.str message) ∧
    (JSONFormat rt σ l level message).get "callers" = some (Value.strs (σ.loggers l).callers) ∧
    (JSONFormat rt σ l level message).get "time" = some (Value.int rt.now) ∧
    (∀ k, k ∈ reservedKeys ∨
      (JSONFormat rt σ l level message).get k = (σ.fieldsOf l).get k) := by
  refine ⟨?_, ?_, ?_, ?_, ?_, ?_⟩
  · intro k
    rw [GoMap.mem_keys_iff, GoMap.mem_keys_iff, JSONFormat_get]
    simp only [reservedKeys, List.mem_cons, List.mem_singleton, List.not_mem_nil, or_false]
    split_ifs <;> simp_all
  · rw [JSONFormat_get]; simp
  · rw [JSONFormat_get]; simp
  · rw [JSONFormat_get]; simp
  · rw [JSONFormat_get]; simp
  · intro k
    rw [JSONFormat_get]
    simp only [reservedKeys, List.mem_cons, List.mem_singleton, List.not_mem_nil, or_false]
    split_ifs <;> simp_all

/-! ## Emission -/

/-- The text json.Marshal returns for a record never ends in a newline, and
neither does the empty text used when it fails: log.Logger.Output adds one. -/
theorem line_marshal (rt : Runtime) (lg : LogLogger) (data : GoMap) :
    lg.line rt ((jsonMarshal data).getD "") =
      lg.header rt ++ (jsonMarshal data).getD "" ++ "\n" := by
  unfold LogLogger.line jsonMarshal
  cases jsonMembers (sortByKey data.entries) with
  | none => simp
  | some ms =>
    have h : ("\x7b" ++ String.intercalate "," ms ++ "\x7d").toList.getLast? ≠
        some (Char.ofNat 10) := by
      have e : ("\x7b" ++ String.intercalate "," ms ++ "\x7d").toList =
          (Char.ofNat 123 :: (String.intercalate "," ms).data) ++ [Char.ofNat 125] := by
        simp [String.toList]
      rw [e, List.getLast?_concat]
      decide
    simp only [Option.getD_some]
    rw [if_neg h]

/-- Output at a level that prints: one Write call, then the method's way of
ending is that of the log.Logger method the switch selects. -/
theorem Output_eq (rt : Runtime) (σ : State) (l : Nat) (level : Level) (message : String)
    (h : 0 ≤ level ∧ level ≤ 5) :
    Output rt σ l level message =
      (σ.wrote (σ.loggers l).newLogger.out
          ((σ.loggers l).newLogger.header rt ++
            (jsonMarshal (JSONFormat rt σ l level message)).getD "" ++ "\n"),
        if level = LevelError ∨ level = LevelPanic then
          Outcome.panicked ((jsonMarshal (JSONFormat rt σ l level message)).getD "")
        else if level = LevelFatal then Outcome.exited 1
        else Outcome.returned) := by
  obtain ⟨h0, h5⟩ := h
  have hcases : level = 0 ∨ level = 1 ∨ level = 2 ∨ level = 3 ∨ level = 4 ∨ level = 5 := by
    interval_cases level <;> simp
  simp only [Output, LogLogger.Print, LogLogger.Panic, LogLogger.Fatal, LogLogger.Output,
    line_marshal, State.wrote, LevelDebug, LevelInfo, LevelWarn, LevelError, LevelFatal,
    LevelPanic]
  rcases hcases with h | h | h | h | h | h <;> subst h <;> simp

/-- C5: Output at LevelError makes exactly one Write call on the sink, whose
text is the header, the encoded record and a newline, and then panics with the
encoded record as value: the store returned with the panic already holds the
line.  Output at LevelPanic does the same; its record has level panic where
the other has error, and the two records agree on every other key.  Errorf is
Output at LevelError on the Sprintf text. -/
theorem Output_error_panics (rt : Runtime) (σ : State) (l : Nat) (message format : String)
    (v : List Value) :
    Output rt σ l LevelError message =
      (σ.wrote (σ.loggers l).newLogger.out
          ((σ.loggers l).newLogger.header rt ++
            (jsonMarshal (JSONFormat rt σ l LevelError message)).getD "" ++ "\n"),
        Outcome.panicked ((jsonMarshal (JSONFormat rt σ l LevelError message)).getD "")) ∧
    Output rt σ l LevelPanic message =
      (σ.wrote (σ.loggers l).newLogger.out
          ((σ.loggers l).newLogger.header rt ++
            (jsonMarshal (JSONFormat rt σ l LevelPanic message)).getD "" ++ "\n"),
        Outcome.panicked ((jsonMarshal (JSONFormat rt σ l LevelPanic message)).getD "")) ∧
    (JSONFormat rt σ l LevelError message).get "level" = some (Value.str "error") ∧
    (JSONFormat rt σ l LevelPanic message).get "level" = some (Value.str "panic") ∧
    (∀ k, k = "level" ∨
      (JSONFormat rt σ l LevelPanic message).get k =
        (JSONFormat rt σ l LevelError message).get k) ∧
    Errorf rt σ l format v = Output rt σ l LevelError (rt.Sprintf format v) := by
  refine ⟨?_, ?_, ?_, ?_, ?_, rfl⟩
  · rw [Output_eq rt σ l LevelError message (by decide)]; simp
  · rw [Output_eq rt σ l LevelPanic message (by decide)]; simp
  · rw [JSONFormat_get]; simp [Level.String, LevelError, LevelDebug, LevelInfo, LevelWarn]
  · rw [JSONFormat_get]
    simp [Level.String, LevelError, LevelDebug, LevelInfo, LevelWarn, LevelFatal, LevelPanic]
  · intro k
    by_cases hk : k = "level"
    · exact Or.inl hk
    · right
      rw [JSONFormat_get, JSONFormat_get]
      simp [hk]

/-- C6: Output at LevelFatal makes exactly one Write call on the sink (header,
encoded record, newline) and ends with the process exiting with status 1: the
store at the exit already holds the line, and the call neither panics nor
returns.  Fatal and Fatalf are Output at LevelFatal on the Sprint and Sprintf
text. -/
theorem Output_fatal_exits (rt : Runtime) (σ : State) (l : Nat) (message format : String)
    (v : List Value) :
    Output rt σ l LevelFatal message =
      (σ.wrote (σ.loggers l).newLogger.out
          ((σ.loggers l).newLogger.header rt ++
            (jsonMarshal (JSONFormat rt σ l LevelFatal message)).getD "" ++ "\n"),
        Outcome.exited 1) ∧
    (Output rt σ l LevelFatal message).2 ≠ Outcome.exited 0 ∧
    (Output rt σ l LevelFatal message).2 ≠ Outcome.returned ∧
    (∀ p, (Output rt σ l LevelFatal message).2 ≠ Outcome.panicked p) ∧
    (JSONFormat rt σ l LevelFatal message).get "level" = some (Value.str "fatal") ∧
    Fatal rt σ l v = Output rt σ l LevelFatal (rt.Sprint v) ∧
    Fatalf rt σ l format v = Output rt σ l LevelFatal (rt.Sprintf format v) := by
  have h := Output_eq rt σ l LevelFatal message (by decide)
  simp only [LevelFatal, LevelError, LevelPanic] at h
  norm_num at h
  refine ⟨h, ?_, ?_, ?_, ?_, rfl, rfl⟩
  · rw [show LevelFatal = (4 : Int) from rfl, h]; simp
  · rw [show LevelFatal = (4 : Int) from rfl, h]; simp
  · intro p; rw [show LevelFatal = (4 : Int) from rfl, h]; simp
  · rw [JSONFormat_get]
    simp [Level.String, LevelError, LevelDebug, LevelInfo, LevelWarn, LevelFatal]

/-- C7: at LevelDebug, LevelInfo and LevelWarn, Output makes exactly one Write
call on the sink (header, encoded record, newline) and returns: no panic, no
exit.  The record it encodes has level debug, info or warn, the level of the
call.  Info and Infof are Output at LevelInfo on the Sprint and Sprintf
text. -/
theorem Output_prints_and_returns (rt : Runtime) (σ : State) (l : Nat) (level : Level)
    (message format : String) (v : List Value)
    (h : level = LevelDebug ∨ level = LevelInfo ∨ level = LevelWarn) :
    Output rt σ l level message =
      (σ.wrote (σ.loggers l).newLogger.out
          ((σ.loggers l).newLogger.header rt ++
            (jsonMarshal (JSONFormat rt σ l level message)).getD "" ++ "\n"),
        Outcome.returned) ∧
    (JSONFormat rt σ l level message).get "level" =
      some (Value.str (if level = LevelDebug then "debug"
        else if level = LevelInfo then "info" else "warn")) ∧
    Info rt σ l v = Output rt σ l LevelInfo (rt.Sprint v) ∧
    Infof rt σ l format v = Output rt σ l LevelInfo (rt.Sprintf format v) := by
  refine ⟨?_, ?_, rfl, rfl⟩
  · rcases h with h | h | h <;> subst h
    · rw [Output_eq rt σ l LevelDebug message (by decide)]; simp [LevelDebug, LevelError, LevelPanic, LevelFatal]
    · rw [Output_eq rt σ l LevelInfo message (by decide)]; simp [LevelInfo, LevelError, LevelPanic, LevelFatal]
    · rw [Output_eq rt σ l LevelWarn message (by decide)]; simp [LevelWarn, LevelError, LevelPanic, LevelFatal]
  · rw [JSONFormat_get]
    rcases h with h | h | h <;> subst h <;>
      simp [Level.String, LevelDebug, LevelInfo, LevelWarn]

/-- C7 at a concrete call: Output at LevelWarn on sampleParent, a handle with
a field. -/
theorem Output_prints_and_returns_witness :
    (LevelWarn = LevelDebug ∨ LevelWarn = LevelInfo ∨ LevelWarn = LevelWarn) ∧
    (Output sampleRuntime sampleParent.1 sampleParent.2 LevelWarn "slow").2 =
      Outcome.returned ∧
    (JSONFormat sampleRuntime sampleParent.1 sampleParent.2 LevelWarn "slow").get "level" =
      some (Value.str "warn") :=
  ⟨by decide,
    congrArg Prod.snd (Output_prints_and_returns sampleRuntime sampleParent.1 sampleParent.2
      LevelWarn "slow" "" [] (by decide)).1,
    (Output_prints_and_returns sampleRuntime sampleParent.1 sampleParent.2 LevelWarn "slow" ""
      [] (by decide)).2.1⟩

/-! ## The Infof scenario -/

/-- The record JSONFormat returns depends on the store only through the
handle's field set and caller list. -/
theorem JSONFormat_congr (rt : Runtime) (σ σ' : State) (l l' : Nat) (level : Level)
    (message : String) (hf : σ.fieldsOf l = σ'.fieldsOf l')
    (hc : (σ.loggers l).callers = (σ'.loggers l').callers) :
    JSONFormat rt σ l level message = JSONFormat rt σ' l' level message := by
  unfold JSONFormat
  rw [hf, hc]

/-- C8, as the code has it: over any store, NewLogger on writer w with empty
prefix and flags 0, then WithFields(request_id: abc), then
Infof("hello %s", "world") (fmt giving hello world) returns normally and makes
exactly one Write call on w, whose text is one JSON object and a newline with
level info, message hello world, request_id abc, the clock reading as time,
and callers null: the root handle's caller list is the nil slice, which
encoding/json writes as null. -/
theorem Infof_scenario (rt : Runtime) (σ : State) (w : Nat)
    (hfmt : rt.Sprintf "hello %s" [Value.str "world"] = "hello world") :
    (chain (scenarioHandle σ w) fun σ l => Infof rt σ l "hello %s" [Value.str "world"]).2 =
      Outcome.returned ∧
    (chain (scenarioHandle σ w)
        fun σ l => Infof rt σ l "hello %s" [Value.str "world"]).1.sink w =
      σ.sink w ++
        ["\x7b\"callers\":null,\"level\":\"info\",\"message\":\"hello world\"," ++
          "\"request_id\":\"abc\",\"time\":" ++ toString rt.now ++ "\x7d" ++ "\n"] ∧
    (chain (scenarioHandle σ w)
        fun σ l => JSONFormat rt σ l LevelInfo "hello world").get "callers" =
      some (Value.strs none) := by
  show
    let r0 := NewLogger σ w "" 0
    let h := WithFields r0.1 r0.2 (some (GoMap.ofList [("request_id", Value.str "abc")]))
    let r := Infof rt h.1 h.2 "hello %s" [Value.str "world"]
    r.2 = Outcome.returned ∧
    r.1.sink w = σ.sink w ++
      ["\x7b\"callers\":null,\"level\":\"info\",\"message\":\"hello world\"," ++
        "\"request_id\":\"abc\",\"time\":" ++ toString rt.now ++ "\x7d" ++ "\n"] ∧
    (JSONFormat rt h.1 h.2 LevelInfo "hello world").get "callers" = some (Value.strs none)
  intro r0 h r
  have hroot : (r0.1.loggers r0.2).fields = none := by
    simp [r0, NewLogger, State.allocLogger]
  have hh : h = _ := WithFields_none r0.1 r0.2 _ hroot
  have hlg : (h.1.loggers h.2).newLogger = ⟨w, "", 0⟩ := by
    rw [hh]; simp [r0, NewLogger, State.allocLogger]
  have hcallers : (h.1.loggers h.2).callers = none := by
    rw [hh]; simp [r0, NewLogger, State.allocLogger]
  have hfields : h.1.fieldsOf h.2 = GoMap.ofList [("request_id", Value.str "abc")] := by
    rw [hh]; simp [State.fieldsOf, State.readMap]; rfl
  have hsink : h.1.sink = σ.sink := by
    rw [hh]; simp [r0, NewLogger, State.allocLogger]
  have hrec : JSONFormat rt h.1 h.2 LevelInfo "hello world" =
      ((((GoMap.empty.set "level" (Value.str "info")).set "time" (Value.int rt.now)).set
        "message" (Value.str "hello world")).set "callers" (Value.strs none)).set
        "request_id" (Value.str "abc") := by
    unfold JSONFormat
    rw [hfields, hcallers]
    rfl
  have hout := (Output_eq rt h.1 h.2 LevelInfo "hello world" (by decide))
  have hr : r = Output rt h.1 h.2 LevelInfo "hello world" := by
    simp only [r, Infof, hfmt]
  refine ⟨?_, ?_, ?_⟩
  · rw [hr, hout]; simp [LevelInfo, LevelError, LevelPanic, LevelFatal]
  · rw [hr, hout, hrec, hlg]
    simp only [State.wrote, Function.update_same, hsink]
    rfl
  · rw [hrec]; rfl

/-- C8 at the sample runtime, over the initial store: the formatter gives
hello world, and the one line written carries callers null. -/
theorem Infof_scenario_witness :
    sampleRuntime.Sprintf "hello %s" [Value.str "world"] = "hello world" ∧
    (chain (scenarioHandle State.init 0)
        fun σ l => Infof sampleRuntime σ l "hello %s" [Value.str "world"]).1.sink 0 =
      ["\x7b\"callers\":null,\"level\":\"info\",\"message\":\"hello world\"," ++
        "\"request_id\":\"abc\",\"time\":1600000000000000000\x7d\n"] :=
  ⟨by decide, (Infof_scenario sampleRuntime State.init 0 (by decide)).2.1⟩

/-- C8 as stated fails: in the scenario, at the sample runtime over the
initial store, the callers key of the encoded record is not the empty array
but the nil slice, and the line written is not the one with callers []. -/
theorem Infof_scenario_callers_not_empty_array :
    (chain (scenarioHandle State.init 0)
        fun σ l => JSONFormat sampleRuntime σ l LevelInfo "hello world").get "callers" ≠
      some (Value.strs (some [])) ∧
    (chain (scenarioHandle State.init 0)
        fun σ l => Infof sampleRuntime σ l "hello %s" [Value.str "world"]).1.sink 0 ≠
      ["\x7b\"callers\":[],\"level\":\"info\",\"message\":\"hello world\"," ++
        "\"request_id\":\"abc\",\"time\":1600000000000000000\x7d\n"] := by
  decide

/-! ## Caller capture -/

/-- The loop of WithCallersFrames, entered with a frame and the flag Next
gave with it: it appends every frame but the last one. -/
theorem WithCallersFrames.loop_eq (f : Frame) (rest : List Frame) (acc : List String) :
    WithCallersFrames.loop f (!rest.isEmpty) rest acc =
      acc ++ ((f :: rest).dropLast.map fun x => formatFrame x.File x.Line x.Function) := by
  induction rest generalizing f acc with
  | nil =>
    unfold WithCallersFrames.loop
    simp
  | cons g t ih =>
    unfold WithCallersFrames.loop
    simp only [List.isEmpty_cons, Bool.not_false, if_true, Bool.not_true, Bool.false_eq_true,
      if_false, Frames.Next]
    rw [ih]
    simp [List.dropLast]

/-- The caller list WithCallersFrames stores: the first 25 frames of the
stack without the last of them. -/
theorem WithCallersFrames_callers (rt : Runtime) (σ : State) (l : Nat) :
    (resultLogger (WithCallersFrames rt σ l)).callers =
      some (((rt.stack.take 25).dropLast).map fun x => formatFrame x.File x.Line x.Function) := by
  simp only [resultLogger, WithCallersFrames, clone, State.allocLogger, State.storeLogger,
    Function.update_same]
  cases hs : rt.stack.take 25 with
  | nil =>
    unfold WithCallersFrames.loop
    simp [Frames.Next]
  | cons f rest =>
    simp only [Frames.Next]
    rw [WithCallersFrames.loop_eq]
    simp

/-- C9 (the code breaks it): on a stack of 3 resolvable frames, where Next
reports false with the last frame, the caller list WithCallersFrames stores
has 2 entries, not 3: the frame delivered together with more = false (here
runtime.main) is never appended, because the for condition is tested before
the body runs. -/
theorem WithCallersFrames_drops_last_frame :
    sampleRuntime.stack.length = 3 ∧
    (resultLogger (WithCallersFrames sampleRuntime State.init 0)).callers =
      some ["/app/pkg/logger/logger.go: 110 blog-service/pkg/logger.(*Logger).WithCallersFrames",
        "/app/main.go: 10 main.main"] := by
  refine ⟨by decide, ?_⟩
  rw [WithCallersFrames_callers]
  decide

/-- C10: WithCaller always returns a handle, a newly allocated one.  When the
runtime resolves the frame at depth skip, the new handle's caller list is the
one-element list with the text file: line function; when it does not, the new
handle's caller list is the receiver's.  In both cases the receiver's struct
(so its caller list) is what it was, the new handle has the receiver's
log.Logger, context and fields, and maps and sinks are untouched. -/
theorem WithCaller_degrades (rt : Runtime) (σ : State) (l : Nat) (skip : Int)
    (hl : l < σ.nextLogger) :
    (match rt.Caller skip with
      | some (pc, file, line) =>
        (resultLogger (WithCaller rt σ l skip)).callers =
          some [file ++ ": " ++ toString line ++ " " ++ rt.FuncName pc]
      | none => (resultLogger (WithCaller rt σ l skip)).callers = (σ.loggers l).callers) ∧
    (WithCaller rt σ l skip).2 = σ.nextLogger ∧
    (WithCaller rt σ l skip).1.loggers l = σ.loggers l ∧
    (resultLogger (WithCaller rt σ l skip)).newLogger = (σ.loggers l).newLogger ∧
    (resultLogger (WithCaller rt σ l skip)).ctx = (σ.loggers l).ctx ∧
    (resultLogger (WithCaller rt σ l skip)).fields = (σ.loggers l).fields ∧
    (WithCaller rt σ l skip).1.maps = σ.maps ∧
    (WithCaller rt σ l skip).1.sink = σ.sink := by
  simp only [resultLogger]
  have hne : l ≠ σ.nextLogger := Nat.ne_of_lt hl
  cases hc : rt.Caller skip with
  | none =>
    simp [WithCaller, hc, clone, State.allocLogger, Function.update_noteq hne]
  | some t =>
    obtain ⟨pc, file, line⟩ := t
    simp [WithCaller, hc, clone, State.allocLogger, State.storeLogger, formatFrame,
      Function.update_noteq hne]

/-- C10 at the sample runtime, on the root handle: depth 1 resolves to
main.main, depth 7 does not resolve and leaves the nil caller list. -/
theorem WithCaller_degrades_witness :
    (0 < (NewLogger State.init 0 "" 0).1.nextLogger) ∧
    (resultLogger (WithCaller sampleRuntime (NewLogger State.init 0 "" 0).1 0 1)).callers =
      some ["/app/main.go: 10 main.main"] ∧
    (resultLogger (WithCaller sampleRuntime (NewLogger State.init 0 "" 0).1 0 7)).callers =
      none ∧
    (WithCaller sampleRuntime (NewLogger State.init 0 "" 0).1 0 7).1.loggers 0 =
      (NewLogger State.init 0 "" 0).1.loggers 0 :=
  ⟨by decide,
    (WithCaller_degrades sampleRuntime (NewLogger State.init 0 "" 0).1 0 1 (by decide)).1,
    (WithCaller_degrades sampleRuntime (NewLogger State.init 0 "" 0).1 0 7 (by decide)).1,
    (WithCaller_degrades sampleRuntime (NewLogger State.init 0 "" 0).1 0 7 (by decide)).2.2.1⟩

/-! ## Encoding failure, levels, context -/

/-- C11: when json.Marshal fails on the record, Output at LevelDebug,
LevelInfo or LevelWarn still makes exactly one Write call on the sink, whose
text is the header and a newline (the content is empty), and returns: no
panic, no exit. -/
theorem Output_encoding_failure (rt : Runtime) (σ : State) (l : Nat) (level : Level)
    (message : String) (henc : jsonMarshal (JSONFormat rt σ l level message) = none)
    (hlvl : level = LevelDebug ∨ level = LevelInfo ∨ level = LevelWarn) :
    Output rt σ l level message =
      (σ.wrote (σ.loggers l).newLogger.out ((σ.loggers l).newLogger.header rt ++ "\n"),
        Outcome.returned) ∧
    (Output rt σ l level message).2 ≠ Outcome.exited 1 ∧
    (∀ p, (Output rt σ l level message).2 ≠ Outcome.panicked p) := by
  have hrange : 0 ≤ level ∧ level ≤ 5 := by
    rcases hlvl with h | h | h <;> subst h <;> decide
  have hkind : ¬ (level = LevelError ∨ level = LevelPanic) ∧ ¬ level = LevelFatal := by
    rcases hlvl with h | h | h <;> subst h <;> decide
  have hout := Output_eq rt σ l level message hrange
  rw [henc, if_neg hkind.1, if_neg hkind.2] at hout
  simp only [Option.getD_none, String.append_empty] at hout
  rw [hout]
  exact ⟨rfl, by simp, by simp⟩

/-- C11 at a concrete call: sampleUnencodable carries a func value, the
encoder fails on its record, and Output at LevelInfo writes the line that
holds only a newline and returns. -/
theorem Output_encoding_failure_witness :
    jsonMarshal (JSONFormat sampleRuntime sampleUnencodable.1 sampleUnencodable.2 LevelInfo
      "saved") = none ∧
    (LevelInfo = LevelDebug ∨ LevelInfo = LevelInfo ∨ LevelInfo = LevelWarn) ∧
    Output sampleRuntime sampleUnencodable.1 sampleUnencodable.2 LevelInfo "saved" =
      (sampleUnencodable.1.wrote 0 "\n", Outcome.returned) :=
  ⟨by decide, by decide,
    (Output_encoding_failure sampleRuntime sampleUnencodable.1 sampleUnencodable.2 LevelInfo
      "saved" (by decide) (by decide)).1⟩

/-- C12: as Level values the six constants are strictly increasing, Debug,
Info, Warn, Error, Fatal, Panic; Level.String gives them the names debug,
info, warn, error, fatal, panic; these six names are pairwise distinct, so
String is injective on the defined levels, and none of them is the empty
string. -/
theorem Level_order_and_names :
    LevelDebug < LevelInfo ∧ LevelInfo < LevelWarn ∧ LevelWarn < LevelError ∧
    LevelError < LevelFatal ∧ LevelFatal < LevelPanic ∧
    Level.String LevelDebug = "debug" ∧ Level.String LevelInfo = "info" ∧
    Level.String LevelWarn = "warn" ∧ Level.String LevelError = "error" ∧
    Level.String LevelFatal = "fatal" ∧ Level.String LevelPanic = "panic" ∧
    (definedLevels.map Level.String).Nodup ∧
    "" ∉ definedLevels.map Level.String := by
  decide

/-- C13: the handle WithContext returns has the context passed in and the
receiver's log.Logger, fields reference (so the same field set entries) and
caller list; the receiver's struct, its field set, and all maps and sinks are
what they were before the call. -/
theorem WithContext_replaces_context (σ : State) (l : Nat) (ctx : Option Nat)
    (hl : l < σ.nextLogger) :
    (resultLogger (WithContext σ l ctx)).ctx = ctx ∧
    (resultLogger (WithContext σ l ctx)).newLogger = (σ.loggers l).newLogger ∧
    (resultLogger (WithContext σ l ctx)).fields = (σ.loggers l).fields ∧
    (resultLogger (WithContext σ l ctx)).callers = (σ.loggers l).callers ∧
    resultFields (WithContext σ l ctx) = σ.fieldsOf l ∧
    (WithContext σ l ctx).1.loggers l = σ.loggers l ∧
    (WithContext σ l ctx).1.fieldsOf l = σ.fieldsOf l ∧
    (WithContext σ l ctx).1.maps = σ.maps ∧
    (WithContext σ l ctx).1.sink = σ.sink := by
  have hne : l ≠ σ.nextLogger := Nat.ne_of_lt hl
  simp [resultLogger, resultFields, WithContext, clone, State.allocLogger, State.storeLogger,
    State.fieldsOf, State.readMap, Function.update_noteq hne]

/-- C13 at a concrete call: sampleParent.WithContext(ctx 7). -/
theorem WithContext_replaces_context_witness :
    sampleParent.2 < sampleParent.1.nextLogger ∧
    (resultLogger (WithContext sampleParent.1 sampleParent.2 (some 7))).ctx = some 7 ∧
    (WithContext sampleParent.1 sampleParent.2 (some 7)).1.loggers sampleParent.2 =
      sampleParent.1.loggers sampleParent.2 :=
  ⟨by decide,
    (WithContext_replaces_context sampleParent.1 sampleParent.2 (some 7) (by decide)).1,
    (WithContext_replaces_context sampleParent.1 sampleParent.2 (some 7)
      (by decide)).2.2.2.2.2.1⟩

/-! ## Package convert -/

/-- C14 (the code breaks it): on a text whose value is outside the int range
Int returns an error and MustInt does not return 0.  For
9223372036854775808 (2^63) strconv.Atoi returns the largest int together with
ErrRange, and MustInt hands that value on; below the range it hands on the
smallest int.  On a syntax error, and on success, MustInt does what the claim
says. -/
theorem MustInt_range_error_not_zero :
    StrTo.Int "9223372036854775808" = (9223372036854775807, some NumError.ErrRange) ∧
    StrTo.MustInt "9223372036854775808" = 9223372036854775807 ∧
    StrTo.Int "-9223372036854775809" = (-9223372036854775808, some NumError.ErrRange) ∧
    StrTo.MustInt "-9223372036854775809" = -9223372036854775808 ∧
    StrTo.MustInt "12a" = 0 ∧
    StrTo.MustInt "-42" = -42 := by
  decide

/-- C15 (the code breaks it): on a text whose value is above the int range
UInt32 returns an error and MustUInt32 does not return 0.  For
9223372036854775808 (2^63) strconv.Atoi returns the largest int together with
ErrRange; converted to uint32 that is 4294967295, which MustUInt32 hands
on. -/
theorem MustUInt32_range_error_not_zero :
    StrTo.UInt32 "9223372036854775808" = (4294967295, some NumError.ErrRange) ∧
    StrTo.MustUInt32 "9223372036854775808" = 4294967295 ∧
    StrTo.MustUInt32 "12a" = 0 := by
  decide

/-! ## Undefined levels -/

/-- C20: for a Level below 0 or above 5, Level.String is the empty string and
Output leaves the store as it is (nothing is written to any sink) and
returns: no panic, no exit. -/
theorem Output_undefined_level (rt : Runtime) (σ : State) (l : Nat) (level : Level)
    (message : String) (h : level < 0 ∨ 5 < level) :
    Level.String level = "" ∧
    Output rt σ l level message = (σ, Outcome.returned) := by
  have h0 : ¬ level = LevelDebug := by
    intro e; subst e; revert h; decide
  have h1 : ¬ level = LevelInfo := by
    intro e; subst e; revert h; decide
  have h2 : ¬ level = LevelWarn := by
    intro e; subst e; revert h; decide
  have h3 : ¬ level = LevelError := by
    intro e; subst e; revert h; decide
  have h4 : ¬ level = LevelFatal := by
    intro e; subst e; revert h; decide
  have h5 : ¬ level = LevelPanic := by
    intro e; subst e; revert h; decide
  simp [Level.String, Output, h0, h1, h2, h3, h4, h5]

/-- C20 at concrete calls: levels 6 and -1 on sampleParent. -/
theorem Output_undefined_level_witness :
    ((6 : Level) < 0 ∨ 5 < (6 : Level)) ∧
    Output sampleRuntime sampleParent.1 sampleParent.2 6 "lost" =
      (sampleParent.1, Outcome.returned) ∧
    ((-1 : Level) < 0 ∨ 5 < (-1 : Level)) ∧
    Output sampleRuntime sampleParent.1 sampleParent.2 (-1) "lost" =
      (sampleParent.1, Outcome.returned) :=
  ⟨by decide,
    (Output_undefined_level sampleRuntime sampleParent.1 sampleParent.2 6 "lost"
      (by decide)).2,
    by decide,
    (Output_undefined_level sampleRuntime sampleParent.1 sampleParent.2 (-1) "lost"
      (by decide)).2⟩

/-! ## WithCallersFrames: bound and frames recorded -/

/-- C16: WithCallersFrames is a total function (its loop is defined by
well-founded recursion on the frames left), so it returns on every stack.
Only the first 25 frames of the stack take part: the call gives the same
result on the stack cut to 25 frames.  The caller list it stores is non-nil
and has at most 25 entries.  The receiver's struct is what it was, the new
handle has the receiver's log.Logger, context and fields, and maps and sinks
are untouched. -/
theorem WithCallersFrames_bounded (rt : Runtime) (σ : State) (l : Nat)
    (hl : l < σ.nextLogger) :
    (∃ cs, (resultLogger (WithCallersFrames rt σ l)).callers = some cs ∧ cs.length ≤ 25) ∧
    WithCallersFrames rt σ l =
      WithCallersFrames { rt with stack := rt.stack.take 25 } σ l ∧
    (WithCallersFrames rt σ l).1.loggers l = σ.loggers l ∧
    (resultLogger (WithCallersFrames rt σ l)).newLogger = (σ.loggers l).newLogger ∧
    (resultLogger (WithCallersFrames rt σ l)).ctx = (σ.loggers l).ctx ∧
    (resultLogger (WithCallersFrames rt σ l)).fields = (σ.loggers l).fields ∧
    (WithCallersFrames rt σ l).1.maps = σ.maps ∧
    (WithCallersFrames rt σ l).1.sink = σ.sink := by
  have hne : l ≠ σ.nextLogger := Nat.ne_of_lt hl
  refine ⟨?_, ?_, ?_⟩
  · refine ⟨_, WithCallersFrames_callers rt σ l, ?_⟩
    rw [List.length_map, List.length_dropLast, List.length_take]
    omega
  · simp only [WithCallersFrames, List.take_take, Nat.min_self]
  · simp [resultLogger, WithCallersFrames, clone, State.allocLogger, State.storeLogger,
      Function.update_noteq hne]

/-- C16 at a concrete call: a stack of 30 frames, on the root handle. -/
theorem WithCallersFrames_bounded_witness :
    0 < (NewLogger State.init 0 "" 0).1.nextLogger ∧
    (∃ cs, (resultLogger (WithCallersFrames deepRuntime (NewLogger State.init 0 "" 0).1
      0)).callers = some cs ∧ cs.length ≤ 25) ∧
    (WithCallersFrames deepRuntime (NewLogger State.init 0 "" 0).1 0).1.loggers 0 =
      (NewLogger State.init 0 "" 0).1.loggers 0 :=
  ⟨by decide,
    (WithCallersFrames_bounded deepRuntime (NewLogger State.init 0 "" 0).1 0 (by decide)).1,
    (WithCallersFrames_bounded deepRuntime (NewLogger State.init 0 "" 0).1 0
      (by decide)).2.2.1⟩

/-- C17: on a non-empty stack of n frames, n at most 25, with Next reporting
false together with the last frame, the caller list WithCallersFrames stores
is the formatted first n - 1 frames, in stack order: the loop ends on the
report without appending the frame that came with it.  The list is never nil;
for n = 1 it is the empty list. -/
theorem WithCallersFrames_omits_final_frame (rt : Runtime) (σ : State) (l : Nat)
    (hne : rt.stack ≠ []) (h25 : rt.stack.length ≤ 25) :
    (resultLogger (WithCallersFrames rt σ l)).callers =
      some ((rt.stack.take (rt.stack.length - 1)).map
        fun x => formatFrame x.File x.Line x.Function) ∧
    (resultLogger (WithCallersFrames rt σ l)).callers ≠ none ∧
    (1 < rt.stack.length ∨ (resultLogger (WithCallersFrames rt σ l)).callers = some []) := by
  have hlen : 0 < rt.stack.length := List.length_pos.2 hne
  have htake : rt.stack.take 25 = rt.stack := List.take_of_length_le h25
  have hc := WithCallersFrames_callers rt σ l
  rw [htake, List.dropLast_eq_take] at hc
  refine ⟨hc, by rw [hc]; simp, ?_⟩
  by_cases h1 : 1 < rt.stack.length
  · exact Or.inl h1
  · right
    have hz : rt.stack.length - 1 = 0 := by omega
    rw [hc, hz]
    rfl

/-- C17 at concrete stacks: three frames give the first two, one frame gives
the empty list. -/
theorem WithCallersFrames_omits_final_frame_witness :
    sampleRuntime.stack ≠ [] ∧ sampleRuntime.stack.length ≤ 25 ∧
    (resultLogger (WithCallersFrames sampleRuntime State.init 0)).callers =
      some ["/app/pkg/logger/logger.go: 110 blog-service/pkg/logger.(*Logger).WithCallersFrames",
        "/app/main.go: 10 main.main"] ∧
    shallowRuntime.stack ≠ [] ∧ shallowRuntime.stack.length ≤ 25 ∧
    (resultLogger (WithCallersFrames shallowRuntime State.init 0)).callers = some [] :=
  ⟨by decide, by decide,
    (WithCallersFrames_omits_final_frame sampleRuntime State.init 0 (by decide)
      (by decide)).1,
    by decide, by decide,
    (WithCallersFrames_omits_final_frame shallowRuntime State.init 0 (by decide)
      (by decide)).1⟩

/-! ## UInt32 on well-formed texts -/

theorem digitOf_digitChar (d : Nat) (h : d < 10) : digitOf (digitChar d) = some d := by
  interval_cases d <;> rfl

theorem splitSign_digit (d : Nat) (h : d < 10) (t : List Char) :
    splitSign (digitChar d :: t) = (false, digitChar d :: t) := by
  interval_cases d <;> rfl

/-- The digit loop on the characters of a digit list continues the number
read so far, as long as the number written stays below 2^64. -/
theorem parseUintFrom_digits (ds : List Nat) (hds : ∀ d ∈ ds, d < 10) (a : Nat)
    (hv : a * 10 ^ ds.length + Nat.ofDigits 10 ds.reverse < 2 ^ 64) :
    parseUintFrom a (ds.map digitChar) =
      (a * 10 ^ ds.length + Nat.ofDigits 10 ds.reverse, none) := by
  induction ds generalizing a with
  | nil => simp [parseUintFrom]
  | cons d t ih =>
    have hd : d < 10 := hds d (List.mem_cons_self d t)
    have ht : ∀ x ∈ t, x < 10 := fun x hx => hds x (List.mem_cons_of_mem d hx)
    have hval : a * 10 ^ (d :: t).length + Nat.ofDigits 10 (d :: t).reverse =
        (a * 10 + d) * 10 ^ t.length + Nat.ofDigits 10 t.reverse := by
      simp only [List.reverse_cons, Nat.ofDigits_append, Nat.ofDigits_singleton,
        List.length_reverse, List.length_cons]
      ring
    rw [hval] at hv ⊢
    have hpow : 0 < 10 ^ t.length := pow_pos (by norm_num) _
    have hle : a * 10 + d ≤ (a * 10 + d) * 10 ^ t.length := Nat.le_mul_of_pos_right _ hpow
    have hsmall : a * 10 + d < 2 ^ 64 := by omega
    have h1 : ¬ (a ≥ (2 ^ 64 - 1) / 10 + 1) := by
      norm_num at hsmall ⊢
      omega
    have h2 : ¬ (a * 10 + d > 2 ^ 64 - 1) := by
      norm_num at hsmall ⊢
      omega
    simp only [List.map_cons, parseUintFrom, digitOf_digitChar d hd]
    rw [if_neg h1, if_neg h2]
    exact ih ht (a * 10 + d) hv

theorem ParseUint_digits (ds : List Nat) (hne : ds ≠ []) (hds : ∀ d ∈ ds, d < 10)
    (hv : Nat.ofDigits 10 ds.reverse < 2 ^ 64) :
    ParseUint (ds.map digitChar) = (Nat.ofDigits 10 ds.reverse, none) := by
  cases ds with
  | nil => exact absurd rfl hne
  | cons d t =>
    have h := parseUintFrom_digits (d :: t) hds 0 (by simpa using hv)
    simp only [zero_mul, zero_add] at h
    simpa [ParseUint] using h

/-- On a well-formed decimal integer within the 64-bit range, strconv.Atoi
returns its value and no error. -/
theorem Atoi_of_isDecimal (s : String) (n : Int) (hs : IsDecimal s n)
    (hlo : -(2 ^ 63) ≤ n) (hhi : n < 2 ^ 63) : Atoi s = (n, none) := by
  obtain ⟨ds, hne, hds, h⟩ := hs
  obtain ⟨d, t, rfl⟩ : ∃ d t, ds = d :: t := by
    cases ds with
    | nil => exact absurd rfl hne
    | cons d t => exact ⟨d, t, rfl⟩
  have hd : d < 10 := hds d (List.mem_cons_self d t)
  have hbound : Nat.ofDigits 10 (d :: t).reverse ≤ 2 ^ 63 := by
    rcases h with ⟨_, hn⟩ | ⟨_, hn⟩ | ⟨_, hn⟩ <;>
      · generalize Nat.ofDigits 10 (d :: t).reverse = u at hn
        subst hn
        norm_num at hlo hhi ⊢
        omega
  have hp := ParseUint_digits (d :: t) hne hds
    (Nat.lt_of_le_of_lt hbound (by norm_num))
  rcases h with ⟨hl, hn⟩ | ⟨hl, hn⟩ | ⟨hl, hn⟩
  · have hsp : splitSign s.toList = (false, (d :: t).map digitChar) := by
      rw [hl, List.map_cons, splitSign_digit d hd]
    unfold Atoi ParseInt
    rw [hsp, hp]
    generalize Nat.ofDigits 10 (d :: t).reverse = u at hn
    subst hn
    have hun : u < 9223372036854775808 := by
      norm_num at hhi
      omega
    simp [hun]
  · have hsp : splitSign s.toList = (false, (d :: t).map digitChar) := by
      rw [hl]; rfl
    unfold Atoi ParseInt
    rw [hsp, hp]
    generalize Nat.ofDigits 10 (d :: t).reverse = u at hn
    subst hn
    have hun : u < 9223372036854775808 := by
      norm_num at hhi
      omega
    simp [hun]
  · have hsp : splitSign s.toList = (true, (d :: t).map digitChar) := by
      rw [hl]; rfl
    unfold Atoi ParseInt
    rw [hsp, hp]
    generalize Nat.ofDigits 10 (d :: t).reverse = u at hn
    subst hn
    have hun : u ≤ 9223372036854775808 := by
      norm_num at hlo
      omega
    simp [hun]

/-- C19: for a text that is a well-formed decimal integer n within the 64-bit
int range, UInt32 returns n modulo 2^32 and a nil error.  The value returned
is n itself exactly when n is at least 0 and below 2^32; otherwise it is a
wrapped value, still without error: the text -1 gives 4294967295 and the text
4294967296 gives 0. -/
theorem UInt32_wraps (s : String) (n : Int) (hs : IsDecimal s n) (hlo : -(2 ^ 63) ≤ n)
    (hhi : n < 2 ^ 63) :
    StrTo.UInt32 s = ((n % 2 ^ 32).toNat, none) ∧
    ((((StrTo.UInt32 s).1 : Nat) : Int) = n ↔ 0 ≤ n ∧ n < 2 ^ 32) ∧
    StrTo.UInt32 "-1" = (4294967295, none) ∧
    StrTo.UInt32 "4294967296" = (0, none) := by
  have ha := Atoi_of_isDecimal s n hs hlo hhi
  have hu : StrTo.UInt32 s = ((n % 2 ^ 32).toNat, none) := by
    simp [StrTo.UInt32, StrTo.String, ha, uint32]
  refine ⟨hu, ?_, by decide, by decide⟩
  rw [hu]
  have hnn : (0 : Int) ≤ n % 2 ^ 32 := Int.emod_nonneg n (by norm_num)
  have hlt : n % 2 ^ 32 < 2 ^ 32 := Int.emod_lt_of_pos n (by norm_num)
  simp only [Int.toNat_of_nonneg hnn]
  constructor
  · intro h
    rw [h] at hnn hlt
    exact ⟨hnn, hlt⟩
  · rintro ⟨h0, h1⟩
    exact Int.emod_eq_of_lt h0 h1

/-- C19 at concrete texts: -1 and +4294967297 are well-formed and within
range, and UInt32 returns 4294967295 and 1 without error. -/
theorem UInt32_wraps_witness :
    IsDecimal "-1" (-1) ∧ -(2 ^ 63) ≤ (-1 : Int) ∧ (-1 : Int) < 2 ^ 63 ∧
    StrTo.UInt32 "-1" = (4294967295, none) ∧
    IsDecimal "+4294967297" 4294967297 ∧
    StrTo.UInt32 "+4294967297" = (1, none) :=
  ⟨⟨[1], by decide, by decide, Or.inr (Or.inr ⟨by decide, by decide⟩)⟩,
    by decide, by decide,
    (UInt32_wraps "-1" (-1)
      ⟨[1], by decide, by decide, Or.inr (Or.inr ⟨by decide, by decide⟩)⟩
      (by decide) (by decide)).1.trans (by decide),
    ⟨[4, 2, 9, 4, 9, 6, 7, 2, 9, 7], by decide, by decide,
      Or.inr (Or.inl ⟨by decide, by decide⟩)⟩,
    (UInt32_wraps "+4294967297" 4294967297
      ⟨[4, 2, 9, 4, 9, 6, 7, 2, 9, 7], by decide, by decide,
        Or.inr (Or.inl ⟨by decide, by decide⟩)⟩
      (by decide) (by decide)).1.trans (by decide)⟩

/-! ## Handles without a field set -/

end BlogService
